import Mathlib

/-!
Shallow embedding of the `mcp-token-analyzer` program (Go) and proofs about it.

The embedding covers:
* the configuration model (`pkg/config/config.go`): `ServerConfig`, `Config`,
  the merged-server view, `InferDefaults`, `Validate`, `LoadEnvFile`, and
  server-environment resolution with path confinement;
* the artifact analyzer (`pkg/analyzer/analyzer.go`): the token-stat records,
  their `Add` accumulators and the `Analyze*` operations;
* the orchestrator (`cmd/mcp-token-analyzer/main.go`): `resolveServerName`,
  `analyzeServer` / `analyzeClient`, `connectAndAnalyzeAll` and `runAnalysis`.

Go strings are Lean `String`s (ASCII data throughout); Go maps are association
lists with the lookup-first convention; Go's `int` token counts are `Nat`
(every count in the program is a length or a sum of lengths, so no overflow
or negativity arises); fallible operations return `Option`/`Except`.
External collaborators (the MCP session, the tokenizer) are oracle parameters.
-/

/-- Transport is the MCP transport type, represented by its string value
(`pkg/config/config.go`). -/
abbrev Transport := String

/-- `config.TransportStdio`. -/
def TransportStdio : Transport := "stdio"

/-- `config.TransportHTTP`. -/
def TransportHTTP : Transport := "http"

/-- `config.TransportStreamableHTTP`, an alias normalized to `TransportHTTP`
by `InferDefaults`. -/
def TransportStreamableHTTP : Transport := "streamable-http"

/-- OAuth 2.0 client credentials block (parsed but not implemented). -/
structure OAuthConfig where
  clientID : String := ""
  clientSecret : String := ""
  scopes : List String := []
deriving DecidableEq, Repr

/-- Custom TLS settings block (parsed but not implemented). -/
structure TLSConfig where
  insecureSkipVerify : Bool := false
  caCertFile : String := ""
  clientCertFile : String := ""
  clientKeyFile : String := ""
deriving DecidableEq, Repr

/-- `config.ServerConfig`: configuration for a single MCP server. -/
structure ServerConfig where
  name : String := ""
  type : Transport := ""
  command : String := ""
  args : List String := []
  url : String := ""
  headers : List (String × String) := []
  env : List (String × String) := []
  envFile : String := ""
  auth : Option OAuthConfig := none
  tls : Option TLSConfig := none
deriving DecidableEq, Repr

/-- Association-list lookup, first binding wins (the Go-map lookup). -/
def aLookup {α : Type} : List (String × α) → String → Option α
  | [], _ => none
  | (k, v) :: rest, key => if k = key then some v else aLookup rest key

/-- A Go `map[string]*ServerConfig`: values are `Option ServerConfig`
because a JSON `null` entry produces a nil pointer. -/
abbrev ServerMap := List (String × Option ServerConfig)

/-- `config.Config`: the two config-file dialect maps
(`mcpServers` is the Claude/Cursor dialect, `servers` the VS Code dialect). -/
structure Config where
  mcpServers : ServerMap := []
  servers : ServerMap := []
deriving DecidableEq, Repr

/-- Content of `Config.GetServers` / `MergedServers`: the `servers` entries
are inserted first and then overlaid by the `mcpServers` entries, so on a
name collision the `mcpServers` (dialect-A) entry wins in full. -/
def mergedEntries (c : Config) : ServerMap :=
  c.servers.filter (fun p => (aLookup c.mcpServers p.1).isNone) ++ c.mcpServers

/-- The per-server body of `Config.InferDefaults`: normalize the
`streamable-http` alias to `http`, then infer the transport from
`command` / `url` when it is unset. -/
def inferDefaultsServer (srv : ServerConfig) : ServerConfig :=
  let srv1 := if srv.type = TransportStreamableHTTP then { srv with type := TransportHTTP } else srv
  if srv1.type = "" then
    if srv1.command ≠ "" then { srv1 with type := TransportStdio }
    else if srv1.url ≠ "" then { srv1 with type := TransportHTTP }
    else srv1
  else srv1

/-- Lift `inferDefaultsServer` over a possibly-nil map entry
(`InferDefaults` skips nil servers). -/
def inferDefaultsEntry : Option ServerConfig → Option ServerConfig
  | none => none
  | some s => some (inferDefaultsServer s)

/-- `Config.InferDefaults`. It iterates the merged view, which holds the
`mcpServers` pointer for a colliding name, so a `servers`-dialect entry
shadowed by an `mcpServers` entry of the same name is never touched. -/
def InferDefaults (c : Config) : Config :=
  { mcpServers := c.mcpServers.map (fun p => (p.1, inferDefaultsEntry p.2)),
    servers := c.servers.map
      (fun p => if (aLookup c.mcpServers p.1).isSome then p else (p.1, inferDefaultsEntry p.2)) }

theorem inferDefaultsServer_idem (s : ServerConfig) :
    inferDefaultsServer (inferDefaultsServer s) = inferDefaultsServer s := by
  by_cases h1 : s.type = TransportStreamableHTTP <;>
  by_cases h2 : s.type = "" <;>
  by_cases h3 : s.command = "" <;>
  by_cases h4 : s.url = "" <;>
  simp only [inferDefaultsServer, h1, h2, h3, h4, if_pos, if_neg, ite_true, ite_false,
    ne_eq, not_true_eq_false, not_false_eq_true, ite_not] <;>
  simp_all [TransportStdio, TransportHTTP, TransportStreamableHTTP]

theorem inferDefaultsEntry_idem (e : Option ServerConfig) :
    inferDefaultsEntry (inferDefaultsEntry e) = inferDefaultsEntry e := by
  cases e <;> simp [inferDefaultsEntry, inferDefaultsServer_idem]

theorem aLookup_map_isSome {α : Type} (l : List (String × α)) (g : String → α → α) (k : String) :
    (aLookup (l.map (fun p => (p.1, g p.1 p.2))) k).isSome = (aLookup l k).isSome := by
  induction l with
  | nil => rfl
  | cons p rest ih =>
    simp only [List.map_cons, aLookup]
    by_cases h : p.1 = k <;> simp [h, ih]

/-- C6: `InferDefaults` is idempotent — applying it twice yields exactly the
same server configurations (including transport types) as applying it once. -/
theorem inferDefaults_idem (c : Config) :
    InferDefaults (InferDefaults c) = InferDefaults c := by
  unfold InferDefaults
  refine congrArg₂ Config.mk ?_ ?_
  · simp only [List.map_map]
    refine List.map_congr_left (fun p _ => ?_)
    simp [inferDefaultsEntry_idem]
  · simp only [List.map_map]
    refine List.map_congr_left (fun p _ => ?_)
    simp only [Function.comp]
    have hkeys : (aLookup (c.mcpServers.map (fun p => (p.1, inferDefaultsEntry p.2))) p.1).isSome
        = (aLookup c.mcpServers p.1).isSome := by
      have := aLookup_map_isSome c.mcpServers (fun _ e => inferDefaultsEntry e) p.1
      simpa using this
    by_cases h : (aLookup c.mcpServers p.1).isSome
    · simp [h, hkeys]
    · simp only [h, if_false, reduceIte]
      simp [hkeys, h, inferDefaultsEntry_idem]

/-- Parse error from the model of `net/url.Parse` (a `:` before any scheme
character yields Go's "missing protocol scheme" error). -/
inductive URLErr
  | missingScheme
deriving DecidableEq, Repr

/-- Model of `net/url`'s `getScheme` scanner: letters continue a scheme;
digits and `+ - .` continue it except at position 0; `:` ends it (an error at
position 0); any other character means the URL has no scheme.
`orig` is the whole input (returned when no scheme is found), `pre` the
scheme characters consumed so far. -/
def getSchemeAux (orig : List Char) : List Char → List Char → Except URLErr (List Char × List Char)
  | _, [] => .ok ([], orig)
  | pre, c :: rest =>
    if c.isLower || c.isUpper then getSchemeAux orig (pre ++ [c]) rest
    else if c.isDigit || c = '+' || c = '-' || c = '.' then
      if pre = [] then .ok ([], orig) else getSchemeAux orig (pre ++ [c]) rest
    else if c = ':' then
      if pre = [] then .error .missingScheme
      else .ok (pre.map Char.toLower, rest)
    else .ok ([], orig)

/-- Character ending the authority component (`/`, `?` or `#`). -/
def authDelim (c : Char) : Bool := c = '/' || c = '?' || c = '#'

/-- The authority component: everything up to the first delimiter. -/
def takeAuthority (l : List Char) : List Char := l.takeWhile (fun c => !(authDelim c))

/-- Strip the userinfo part: Go's `parseAuthority` splits at the LAST `@`. -/
def afterLastAt (l : List Char) : List Char :=
  if l.contains '@' then (l.reverse.takeWhile (fun c => c ≠ '@')).reverse else l

/-- The scheme and host of a parsed URL (the parts `validateURL` reads;
Go's `URL.Host` includes the port). -/
structure URLParts where
  scheme : String
  host : String
deriving DecidableEq, Repr

/-- Model of `net/url.Parse` restricted to scheme and host extraction: the
scheme per `getScheme` (lowercased), the host as the authority after `//`
minus userinfo, empty when the URL has no `//` authority. Percent-escape and
control-character validation is elided. -/
def urlParse (raw : String) : Except URLErr URLParts :=
  match getSchemeAux raw.toList [] raw.toList with
  | .error e => .error e
  | .ok (sch, rest) =>
      let host := if rest.take 2 = ['/', '/'] then afterLastAt (takeAuthority (rest.drop 2)) else []
      .ok ⟨String.mk sch, String.mk host⟩

/-- The distinct failures of `config.validateURL`. -/
inductive URLIssue
  | malformed (e : URLErr)
  | badScheme (s : String)
  | missingHost
deriving DecidableEq, Repr

/-- `config.validateURL`: well-formed, scheme `http`/`https`, non-empty host. -/
def validateURL (raw : String) : Option URLIssue :=
  match urlParse raw with
  | .error e => some (.malformed e)
  | .ok p =>
      if p.scheme ≠ "http" ∧ p.scheme ≠ "https" then some (.badScheme p.scheme)
      else if p.host = "" then some .missingHost
      else none

/-- The per-server error messages `config.Validate` can emit, structurally. -/
inductive VIssue
  | nilConfig (name : String)
  | stdioNoCommand (name : String)
  | httpNoURL (name : String)
  | httpBadURL (name : String) (e : URLIssue)
  | noTransportType (name : String)
  | unknownTransport (name : String) (t : String)
deriving DecidableEq, Repr

/-- The per-server switch inside `config.Validate`. -/
def validateServer (name : String) : Option ServerConfig → List VIssue
  | none => [.nilConfig name]
  | some srv =>
    if srv.type = TransportStdio then
      if srv.command = "" then [.stdioNoCommand name] else []
    else if srv.type = TransportHTTP then
      if srv.url = "" then [.httpNoURL name]
      else
        match validateURL srv.url with
        | some e => [.httpBadURL name e]
        | none => []
    else if srv.type = "" then [.noTransportType name]
    else [.unknownTransport name srv.type]

/-- The result of `config.Validate`: either the zero-servers error or the
joined per-server messages. -/
inductive ValidateErr
  | noServers
  | invalid (issues : List VIssue)
deriving DecidableEq, Repr

/-- `config.Validate`. -/
def Validate (c : Config) : Option ValidateErr :=
  let servers := mergedEntries c
  if servers = [] then some .noServers
  else
    let errs := servers.flatMap (fun p => validateServer p.1 p.2)
    if errs = [] then none else some (.invalid errs)

theorem flatMap_eq_nil_iff {α β : Type} (l : List α) (f : α → List β) :
    l.flatMap f = [] ↔ ∀ x ∈ l, f x = [] := by
  induction l <;> simp_all

theorem validateURL_eq_none_iff (raw : String) :
    validateURL raw = none ↔
      ∃ p, urlParse raw = .ok p ∧ (p.scheme = "http" ∨ p.scheme = "https") ∧ p.host ≠ "" := by
  unfold validateURL
  cases h : urlParse raw with
  | error e => simp
  | ok p =>
    by_cases s1 : p.scheme = "http" <;> by_cases s2 : p.scheme = "https" <;>
      by_cases hh : p.host = "" <;> simp_all

/-- C5: `Validate` fails with the zero-servers error when the merged map is
empty; a stdio server validates exactly when its command is non-empty; an
http server validates iff its URL parses with scheme `http`/`https` and a
non-empty host; a server whose transport is still unset after inference
fails; and `Validate` succeeds exactly when there is at least one server and
every server's per-server check passes. -/
theorem validate_spec :
    (∀ c : Config, mergedEntries c = [] → Validate c = some .noServers)
  ∧ (∀ (n : String) (srv : ServerConfig), srv.type = TransportStdio →
      (validateServer n (some srv) = [] ↔ srv.command ≠ ""))
  ∧ (∀ (n : String) (srv : ServerConfig), srv.type = TransportHTTP →
      (validateServer n (some srv) = [] ↔
        ∃ p, urlParse srv.url = .ok p ∧ (p.scheme = "http" ∨ p.scheme = "https") ∧ p.host ≠ ""))
  ∧ (∀ (n : String) (srv : ServerConfig), srv.type = "" →
      validateServer n (some srv) ≠ [])
  ∧ (∀ c : Config, Validate c = none ↔
      mergedEntries c ≠ [] ∧ ∀ p ∈ mergedEntries c, validateServer p.1 p.2 = []) := by
  refine ⟨?_, ?_, ?_, ?_, ?_⟩
  · intro c h
    simp [Validate, h]
  · intro n srv ht
    by_cases hc : srv.command = "" <;> simp [validateServer, ht, hc]
  · intro n srv ht
    have hne : TransportHTTP ≠ TransportStdio := by decide
    by_cases hu : srv.url = ""
    · have hparse : urlParse "" = .ok ⟨"", ""⟩ := rfl
      simp only [validateServer, ht, hne, if_neg, if_pos, hu]
      simp only [reduceIte]
      constructor
      · intro h; cases h
      · rintro ⟨p, hp, hs, hh⟩
        rw [hparse] at hp
        obtain rfl : p = ⟨"", ""⟩ := (Except.ok.inj hp).symm
        simp at hs
    · simp only [validateServer, ht, hne, hu, if_neg, if_pos, reduceIte]
      rw [← validateURL_eq_none_iff srv.url]
      cases h : validateURL srv.url <;> simp [h]
  · intro n srv ht
    simp [validateServer, ht, TransportStdio, TransportHTTP]
  · intro c
    unfold Validate
    by_cases h : mergedEntries c = []
    · simp [h]
    · simp only [h, if_neg, reduceIte]
      rw [← flatMap_eq_nil_iff (mergedEntries c) (fun p => validateServer p.1 p.2)]
      by_cases he : (mergedEntries c).flatMap (fun p => validateServer p.1 p.2) = [] <;>
        simp [he, h]

/-- The end-to-end example configuration of the spec: `svc-a` with a command,
`svc-b` with a URL, transports inferred. -/
def exampleCfg : Config :=
  { mcpServers :=
      [("svc-a", some { name := "svc-a", command := "echo" }),
       ("svc-b", some { name := "svc-b", url := "http://localhost:9/mcp" })],
    servers := [] }

theorem validate_spec_witness :
    Validate (InferDefaults exampleCfg) = none
    ∧ (mergedEntries { mcpServers := [], servers := [] } = [] →
        Validate { mcpServers := [], servers := [] } = some .noServers)
    ∧ (validateServer "s" (some { type := TransportStdio, command := "c" }) = [] ↔
        ("c" : String) ≠ "")
    ∧ (validateServer "b" (some { type := TransportHTTP, url := "http://localhost:9/mcp" }) = [] ↔
        ∃ p, urlParse "http://localhost:9/mcp" = .ok p
          ∧ (p.scheme = "http" ∨ p.scheme = "https") ∧ p.host ≠ "")
    ∧ validateServer "u" (some { type := "" }) ≠ [] := by
  refine ⟨?_, ?_, ?_, ?_, ?_⟩
  · rw [validate_spec.2.2.2.2 (InferDefaults exampleCfg)]
    have hmerged : mergedEntries (InferDefaults exampleCfg) =
        [("svc-a", some { name := "svc-a", command := "echo", type := TransportStdio }),
         ("svc-b", some { name := "svc-b", url := "http://localhost:9/mcp", type := TransportHTTP })] := rfl
    refine ⟨?_, ?_⟩
    · rw [hmerged]; intro h; cases h
    · intro p hp
      rw [hmerged] at hp
      rcases List.mem_cons.mp hp with h | h
      · subst h; rfl
      · have h2 := List.mem_singleton.mp h
        subst h2; rfl
  · exact validate_spec.1 { mcpServers := [], servers := [] }
  · exact validate_spec.2.1 "s" { type := TransportStdio, command := "c" } rfl
  · exact validate_spec.2.2.1 "b" { type := TransportHTTP, url := "http://localhost:9/mcp" } rfl
  · exact validate_spec.2.2.2.1 "u" { type := "" } rfl

theorem list_set_concat {α : Type} (l : List α) (x y : α) :
    (l ++ [x]).set l.length y = l ++ [y] := by
  induction l <;> simp_all [List.set]

theorem aLookup_append {α : Type} (l1 l2 : List (String × α)) (k : String) :
    aLookup (l1 ++ l2) k =
      match aLookup l1 k with
      | some v => some v
      | none => aLookup l2 k := by
  induction l1 with
  | nil => simp [aLookup]
  | cons p rest ih =>
    by_cases h : p.1 = k <;> simp [aLookup, h, ih]

theorem aLookup_filter_shadowed (mcp : ServerMap) (svs : ServerMap) (k : String)
    (h : (aLookup mcp k).isSome) :
    aLookup (svs.filter (fun p => (aLookup mcp p.1).isNone)) k = none := by
  induction svs with
  | nil => rfl
  | cons p rest ih =>
    by_cases hk : p.1 = k
    · have : (aLookup mcp p.1).isNone = false := by
        rw [hk]; cases hm : aLookup mcp k <;> simp_all
      simp [List.filter_cons, this, ih]
    · by_cases hf : (aLookup mcp p.1).isNone <;> simp [List.filter_cons, hf, aLookup, hk, ih]

theorem aLookup_filter_open (mcp : ServerMap) (svs : ServerMap) (k : String)
    (h : aLookup mcp k = none) :
    aLookup (svs.filter (fun p => (aLookup mcp p.1).isNone)) k = aLookup svs k := by
  induction svs with
  | nil => rfl
  | cons p rest ih =>
    by_cases hk : p.1 = k
    · have hpn : (aLookup mcp p.1).isNone = true := by rw [hk, h]; rfl
      simp [List.filter_cons, hpn, aLookup, hk, h]
    · by_cases hf : (aLookup mcp p.1).isNone <;> simp [List.filter_cons, hf, aLookup, hk, ih]

/-- A heap of allocated Go map containers; a map reference is an index into it. -/
abbrev MapStore := List ServerMap

/-- `Config.GetServers` in a heap-passing embedding: each call allocates a
fresh map container, fills it with the `servers` entries overlaid by the
`mcpServers` entries, and returns the new reference. The values inside stay
the shared `ServerConfig` pointers. -/
def GetServersSt (c : Config) (σ : MapStore) : Nat × MapStore :=
  (σ.length, σ ++ [mergedEntries c])

/-- A caller mutating a returned map container in place (adding or removing
entries): the container at reference `r` is replaced wholesale. -/
def storeSet (σ : MapStore) (r : Nat) (m : ServerMap) : MapStore := σ.set r m

/-- C9: calling `GetServers` twice yields maps of equal content, with a
`mcpServers` (dialect-A) entry overriding a `servers` (dialect-B) entry on a
name collision in both calls; arbitrarily mutating the container returned by
the first call does not change what the second call returns; and the second
call's container is a fresh one (a different reference). -/
theorem getServers_defensive (c : Config) (σ : MapStore) (m' : ServerMap) :
    (GetServersSt c σ).1 ≠ (GetServersSt c (storeSet (GetServersSt c σ).2 (GetServersSt c σ).1 m')).1
    ∧ (GetServersSt c σ).2[(GetServersSt c σ).1]? = some (mergedEntries c)
    ∧ (GetServersSt c (storeSet (GetServersSt c σ).2 (GetServersSt c σ).1 m')).2[
        (GetServersSt c (storeSet (GetServersSt c σ).2 (GetServersSt c σ).1 m')).1]?
        = some (mergedEntries c)
    ∧ (∀ k v, aLookup c.mcpServers k = some v → aLookup (mergedEntries c) k = some v)
    ∧ (∀ k, aLookup c.mcpServers k = none →
        aLookup (mergedEntries c) k = aLookup c.servers k) := by
  refine ⟨?_, ?_, ?_, ?_, ?_⟩
  · simp [GetServersSt, storeSet]
  · simp [GetServersSt, List.getElem?_concat_length]
  · have hset : storeSet (GetServersSt c σ).2 (GetServersSt c σ).1 m' = σ ++ [m'] := by
      unfold GetServersSt storeSet
      exact list_set_concat σ (mergedEntries c) m'
    rw [hset]
    exact List.getElem?_concat_length (σ ++ [m']) (mergedEntries c)
  · intro k v h
    unfold mergedEntries
    rw [aLookup_append]
    rw [aLookup_filter_shadowed c.mcpServers c.servers k (by rw [h]; rfl)]
    simp [h]
  · intro k h
    unfold mergedEntries
    rw [aLookup_append]
    rw [aLookup_filter_open c.mcpServers c.servers k h]
    cases hs : aLookup c.servers k <;> simp [h, hs]

/-- A config with a name collision between the two dialect maps, for the C9
witness. -/
def collidingCfg : Config :=
  { mcpServers := [("a", some { name := "a", command := "A" })],
    servers := [("a", some { name := "a", command := "B" }), ("b", some { name := "b" })] }

theorem getServers_defensive_witness :
    aLookup (mergedEntries collidingCfg) "a" = some (some { name := "a", command := "A" })
    ∧ aLookup (mergedEntries collidingCfg) "b" = some (some { name := "b" })
    ∧ (GetServersSt collidingCfg []).1 ≠
        (GetServersSt collidingCfg
          (storeSet (GetServersSt collidingCfg []).2 (GetServersSt collidingCfg []).1 [])).1 := by
  have h := getServers_defensive collidingCfg [] []
  refine ⟨h.2.2.2.1 "a" (some { name := "a", command := "A" }) rfl, ?_, h.1⟩
  rw [h.2.2.2.2 "b" rfl]
  rfl

/-- The hard errors of `config.LoadEnvFile`, each identifying the 1-based
line number (the model of `fmt.Errorf("line %d: ...", lineNum)`). -/
inductive EnvParseErr
  | missingEq (lineNum : Nat)
  | emptyKey (lineNum : Nat)
deriving DecidableEq, Repr

/-- `result[key] = value` on the accumulated Go map, overwriting. -/
def envInsert (m : List (String × String)) (k v : String) : List (String × String) :=
  (m.filter (fun p => p.1 ≠ k)) ++ [(k, v)]

/-- ASCII whitespace as trimmed by `strings.TrimSpace` (space, tab, newline,
carriage return, vertical tab, form feed). -/
def isSpaceChar (c : Char) : Bool :=
  c = ' ' || c = '\t' || c = '\n' || c = '\r' || c.val = 11 || c.val = 12

/-- `strings.TrimSpace` on the characters of a line. -/
def trimChars (l : List Char) : List Char :=
  ((l.dropWhile isSpaceChar).reverse.dropWhile isSpaceChar).reverse

/-- Whether the (trimmed) line starts with the comment character. -/
def startsWithChar (l : List Char) (c : Char) : Bool :=
  match l with
  | x :: _ => x = c
  | [] => false

/-- Index of the first `=` in the line (`strings.Index(line, "=")`),
counting from `i`. -/
def eqIndexAux : List Char → Nat → Option Nat
  | [], _ => none
  | c :: rest, i => if c = '=' then some i else eqIndexAux rest (i + 1)

/-- Strip one pair of surrounding matching quote characters from a value of
length at least 2 (the `value[0]`/`value[len(value)-1]` checks). -/
def stripQuotes (v : List Char) : List Char :=
  if v.length ≥ 2 ∧
      ((v.head? = some '"' ∧ v.getLast? = some '"') ∨
       (v.head? = some '\'' ∧ v.getLast? = some '\'')) then
    (v.drop 1).dropLast
  else v

/-- The scanner loop of `config.LoadEnvFile`: `n` lines have been consumed,
so the current line is numbered `n + 1`. Blank lines and `#` comments are
skipped; otherwise the line is split at the first `=`; a missing `=` or an
empty (trimmed) key is a hard error naming the line number. -/
def loadEnvLines : Nat → List String → List (String × String) → Except EnvParseErr (List (String × String))
  | _, [], result => .ok result
  | n, l :: rest, result =>
    let line := trimChars l.toList
    if line = [] ∨ startsWithChar line '#' then loadEnvLines (n + 1) rest result
    else
      match eqIndexAux line 0 with
      | none => .error (.missingEq (n + 1))
      | some idx =>
        let key := trimChars (line.take idx)
        let value := stripQuotes (trimChars (line.drop (idx + 1)))
        if key = [] then .error (.emptyKey (n + 1))
        else loadEnvLines (n + 1) rest (envInsert result (String.mk key) (String.mk value))

/-- `config.LoadEnvFile` on the file's lines (the scanner splits on newlines). -/
def LoadEnvFile (lines : List String) : Except EnvParseErr (List (String × String)) :=
  loadEnvLines 0 lines []

/-- C8: env parsing skips blank lines and `#` comments; a remaining line is
split at the first `=` with surrounding matching quotes stripped from the
value; a line without `=` is a hard error naming its 1-based line number, as
is a line with an empty key; `KEY=value` maps KEY to `value` and
`KEY="a b"` maps KEY to `a b`. -/
theorem loadEnvFile_spec :
    (∀ (n : Nat) (l : String) (rest : List String) (result : List (String × String)),
      (trimChars l.toList = [] ∨ startsWithChar (trimChars l.toList) '#') →
      loadEnvLines n (l :: rest) result = loadEnvLines (n + 1) rest result)
  ∧ (∀ (n : Nat) (l : String) (rest : List String) (result : List (String × String)),
      ¬(trimChars l.toList = [] ∨ startsWithChar (trimChars l.toList) '#') →
      eqIndexAux (trimChars l.toList) 0 = none →
      loadEnvLines n (l :: rest) result = .error (.missingEq (n + 1)))
  ∧ (∀ (n : Nat) (l : String) (rest : List String) (result : List (String × String)) (idx : Nat),
      ¬(trimChars l.toList = [] ∨ startsWithChar (trimChars l.toList) '#') →
      eqIndexAux (trimChars l.toList) 0 = some idx →
      trimChars ((trimChars l.toList).take idx) = [] →
      loadEnvLines n (l :: rest) result = .error (.emptyKey (n + 1)))
  ∧ (∀ (n : Nat) (l : String) (rest : List String) (result : List (String × String)) (idx : Nat),
      ¬(trimChars l.toList = [] ∨ startsWithChar (trimChars l.toList) '#') →
      eqIndexAux (trimChars l.toList) 0 = some idx →
      trimChars ((trimChars l.toList).take idx) ≠ [] →
      loadEnvLines n (l :: rest) result =
        loadEnvLines (n + 1) rest
          (envInsert result
            (String.mk (trimChars ((trimChars l.toList).take idx)))
            (String.mk (stripQuotes (trimChars ((trimChars l.toList).drop (idx + 1)))))))
  ∧ LoadEnvFile ["KEY=value"] = .ok [("KEY", "value")]
  ∧ LoadEnvFile ["KEY=\"a b\""] = .ok [("KEY", "a b")] := by
  refine ⟨?_, ?_, ?_, ?_, rfl, rfl⟩
  · intro n l rest result h
    simp only [loadEnvLines, h, if_pos]
  · intro n l rest result h hidx
    simp only [loadEnvLines, h, if_neg, reduceIte, hidx]
  · intro n l rest result idx h hidx hkey
    simp only [loadEnvLines, h, if_neg, reduceIte, hidx, hkey, if_pos]
  · intro n l rest result idx h hidx hkey
    simp only [loadEnvLines, h, if_neg, reduceIte, hidx, hkey]

theorem loadEnvFile_spec_witness :
    LoadEnvFile ["# comment", "", "NOEQ"] = .error (.missingEq 3)
    ∧ LoadEnvFile ["=value"] = .error (.emptyKey 1)
    ∧ LoadEnvFile ["KEY=value"] = .ok [("KEY", "value")] := by
  have h := loadEnvFile_spec
  refine ⟨?_, ?_, h.2.2.2.2.1⟩
  · rw [show LoadEnvFile ["# comment", "", "NOEQ"]
        = loadEnvLines 0 ["# comment", "", "NOEQ"] [] from rfl]
    rw [h.1 0 "# comment" ["", "NOEQ"] [] (by decide)]
    rw [h.1 1 "" ["NOEQ"] [] (by decide)]
    exact h.2.1 2 "NOEQ" [] [] (by decide) (by decide)
  · exact h.2.2.1 0 "=value" [] [] 0 (by decide) (by decide) (by decide)

/-- Unix `filepath.IsAbs`. -/
def isAbsPath (p : String) : Bool := startsWithChar p.toList '/'

/-- Split a path into its `/`-separated pieces (`acc` holds the current
piece reversed). -/
def splitSlashAux : List Char → List Char → List String
  | [], acc => [String.mk acc.reverse]
  | c :: rest, acc =>
    if c = '/' then String.mk acc.reverse :: splitSlashAux rest []
    else splitSlashAux rest (c :: acc)

/-- The non-empty segments of a path. -/
def pathSegs (p : String) : List String :=
  (splitSlashAux p.toList []).filter (fun s => s ≠ "")

/-- The lexical cleaning of `path/filepath.Clean` on segments: `.` is
removed, `..` pops the previous segment, and a leading `..` is dropped at
the root of an absolute path but kept for a relative one. `acc` holds the
processed segments reversed. -/
def cleanSegsAux (abs : Bool) : List String → List String → List String
  | acc, [] => acc.reverse
  | acc, c :: cs =>
    if c = "." then cleanSegsAux abs acc cs
    else if c = ".." then
      match acc with
      | a :: rest => if a = ".." then cleanSegsAux abs (c :: a :: rest) cs else cleanSegsAux abs rest cs
      | [] => if abs then cleanSegsAux abs [] cs else cleanSegsAux abs [c] cs
    else cleanSegsAux abs (c :: acc) cs

/-- A path in canonical (cleaned) form: absolute flag plus segments. -/
structure CPath where
  abs : Bool
  segs : List String
deriving DecidableEq, Repr

/-- `filepath.Clean` of a single path, in canonical form. -/
def canonPath (p : String) : CPath :=
  let a := isAbsPath p
  ⟨a, cleanSegsAux a [] (pathSegs p)⟩

/-- `filepath.Join(dir, p)` (Join cleans its result), in canonical form. -/
def joinCanon (dir p : String) : CPath :=
  let a := isAbsPath dir
  ⟨a, cleanSegsAux a [] (pathSegs dir ++ pathSegs p)⟩

/-- Whether the resolved relative env-file path stays under the config
directory: the cleaned config-dir segments lead the cleaned joined path. -/
def underConfigDir (configDir envFile : String) : Bool :=
  (canonPath configDir).segs.isPrefixOf (joinCanon configDir envFile).segs

/-- An in-memory file system: canonical path to file lines. -/
def FileSys := CPath → Option (List String)

/-- Failure to load an env file: missing file or a parse error. -/
inductive EnvLoadErr
  | fileNotFound
  | parse (e : EnvParseErr)
deriving DecidableEq, Repr

/-- `LoadEnvFile` against the file system. -/
def loadEnvFileAt (fs : FileSys) (p : CPath) : Except EnvLoadErr (List (String × String)) :=
  match fs p with
  | none => .error .fileNotFound
  | some lines =>
    match LoadEnvFile lines with
    | .error e => .error (.parse e)
    | .ok vars => .ok vars

/-- The errors of `MergeServerEnv`: the distinct confinement error
("outside the config directory") versus a wrapped env-file load failure. -/
inductive EnvResolutionErr
  | outsideConfigDir (envFile : String)
  | loadFailed (envFile : String) (e : EnvLoadErr)
deriving DecidableEq, Repr

/-- The merge of file-sourced entries with the inline `env` map: file
entries are inserted first, inline entries override on the same key. -/
def envOverlay (fileVars envVars : List (String × String)) : List (String × String) :=
  envVars.foldl (fun m p => envInsert m p.1 p.2)
    (fileVars.foldl (fun m p => envInsert m p.1 p.2) [])

/-- Modelled from the spec: `config.MergeServerEnv`. Its body is absent from
the sources (only its caller `mcpclient.NewClientFromConfig` and its tests
are present), so the behaviour follows the spec: an env-file path that is
set and relative is resolved against `configDir` and rejected with a
distinct confinement error when the resolved path falls outside
`configDir`; an absolute env-file path is an explicit trusted override that
bypasses the confinement check; file-sourced entries are loaded first and
inline `env` entries override them. -/
def MergeServerEnv (fs : FileSys) (srv : ServerConfig) (configDir : String) :
    Except EnvResolutionErr (List (String × String)) :=
  if srv.envFile ≠ "" then
    if isAbsPath srv.envFile then
      match loadEnvFileAt fs (canonPath srv.envFile) with
      | .error e => .error (.loadFailed srv.envFile e)
      | .ok vars => .ok (envOverlay vars srv.env)
    else if underConfigDir configDir srv.envFile then
      match loadEnvFileAt fs (joinCanon configDir srv.envFile) with
      | .error e => .error (.loadFailed srv.envFile e)
      | .ok vars => .ok (envOverlay vars srv.env)
    else .error (.outsideConfigDir srv.envFile)
  else .ok (envOverlay [] srv.env)

/-- C1: a set, relative env-file path is resolved against `configDir`; when
the resolved path falls outside `configDir` the result is the distinct
confinement error, for every file system — so the file is never loaded;
when it resolves under `configDir` (including in a subdirectory) the file is
loaded and merged; an absolute env-file path bypasses the confinement check
entirely and loads regardless of `configDir`. -/
theorem mergeServerEnv_confinement :
    (∀ (fs : FileSys) (srv : ServerConfig) (configDir : String),
      srv.envFile ≠ "" → ¬ isAbsPath srv.envFile →
      ¬ underConfigDir configDir srv.envFile →
      MergeServerEnv fs srv configDir = .error (.outsideConfigDir srv.envFile))
  ∧ (∀ (fs : FileSys) (srv : ServerConfig) (configDir : String)
        (lines : List String) (vars : List (String × String)),
      srv.envFile ≠ "" → ¬ isAbsPath srv.envFile →
      underConfigDir configDir srv.envFile →
      fs (joinCanon configDir srv.envFile) = some lines →
      LoadEnvFile lines = .ok vars →
      MergeServerEnv fs srv configDir = .ok (envOverlay vars srv.env))
  ∧ (∀ (fs : FileSys) (srv : ServerConfig) (configDir : String)
        (lines : List String) (vars : List (String × String)),
      srv.envFile ≠ "" → isAbsPath srv.envFile →
      fs (canonPath srv.envFile) = some lines →
      LoadEnvFile lines = .ok vars →
      MergeServerEnv fs srv configDir = .ok (envOverlay vars srv.env)) := by
  refine ⟨?_, ?_, ?_⟩
  · intro fs srv configDir hset habs hunder
    simp only [MergeServerEnv, hset, habs, hunder, if_neg, if_pos, reduceIte,
      Bool.false_eq_true, not_false_eq_true]
    simp_all
  · intro fs srv configDir lines vars hset habs hunder hfs hload
    simp only [MergeServerEnv, hset, habs, hunder, loadEnvFileAt, hfs, hload, if_neg, if_pos,
      reduceIte, Bool.false_eq_true, not_false_eq_true]
    simp_all [loadEnvFileAt, hfs, hload]
  · intro fs srv configDir lines vars hset habs hfs hload
    simp only [MergeServerEnv, hset, habs, loadEnvFileAt, hfs, hload, if_neg, if_pos, reduceIte]
    simp_all [loadEnvFileAt, hfs, hload]

/-- The file system for the C1 witness: an env file in a subdirectory of
the config directory `/home/user/cfg`, one at the absolute path
`/opt/external.env`, and `/etc/shadow` present as bait. -/
def witnessFs : FileSys := fun p =>
  if p = ⟨true, ["home", "user", "cfg", "subdir", "app.env"]⟩ then
    some ["NESTED_KEY=nested-value"]
  else if p = ⟨true, ["opt", "external.env"]⟩ then
    some ["ABS_KEY=abs-value"]
  else if p = ⟨true, ["etc", "shadow"]⟩ then
    some ["root:secret"]
  else none

theorem mergeServerEnv_confinement_witness :
    MergeServerEnv witnessFs { envFile := "../../etc/shadow" } "/home/user/cfg"
      = .error (.outsideConfigDir "../../etc/shadow")
    ∧ MergeServerEnv witnessFs { envFile := "subdir/app.env" } "/home/user/cfg"
      = .ok [("NESTED_KEY", "nested-value")]
    ∧ MergeServerEnv witnessFs { envFile := "/opt/external.env" } "/home/user/cfg"
      = .ok [("ABS_KEY", "abs-value")] := by
  refine ⟨?_, ?_, ?_⟩
  · exact mergeServerEnv_confinement.1 witnessFs { envFile := "../../etc/shadow" }
      "/home/user/cfg" (by decide) (by decide) (by decide)
  · exact mergeServerEnv_confinement.2.1 witnessFs { envFile := "subdir/app.env" }
      "/home/user/cfg" ["NESTED_KEY=nested-value"] [("NESTED_KEY", "nested-value")]
      (by decide) (by decide) (by decide) rfl rfl
  · exact mergeServerEnv_confinement.2.2 witnessFs { envFile := "/opt/external.env" }
      "/home/user/cfg" ["ABS_KEY=abs-value"] [("ABS_KEY", "abs-value")]
      (by decide) (by decide) rfl rfl

instance {ε α : Type} [DecidableEq ε] [DecidableEq α] : DecidableEq (Except ε α) := fun x y =>
  match x, y with
  | .error a, .error b =>
    if h : a = b then .isTrue (congrArg Except.error h)
    else .isFalse (fun hh => h (Except.error.inj hh))
  | .error _, .ok _ => .isFalse (fun hh => Except.noConfusion hh)
  | .ok _, .error _ => .isFalse (fun hh => Except.noConfusion hh)
  | .ok a, .ok b =>
    if h : a = b then .isTrue (congrArg Except.ok h)
    else .isFalse (fun hh => h (Except.ok.inj hh))

/-- `analyzer.ToolTokens`: token counts for one MCP tool definition. -/
structure ToolTokens where
  name : String := ""
  nameTokens : Nat := 0
  descTokens : Nat := 0
  schemaTokens : Nat := 0
  outputSchemaTokens : Nat := 0
  annotationsTokens : Nat := 0
  totalTokens : Nat := 0
deriving DecidableEq, Repr

/-- `ToolTokens.Add`: accumulate every numeric field of `other` into the
receiver; the receiver's name is untouched. -/
def ToolTokens.Add (t other : ToolTokens) : ToolTokens :=
  { t with
    nameTokens := t.nameTokens + other.nameTokens,
    descTokens := t.descTokens + other.descTokens,
    schemaTokens := t.schemaTokens + other.schemaTokens,
    outputSchemaTokens := t.outputSchemaTokens + other.outputSchemaTokens,
    annotationsTokens := t.annotationsTokens + other.annotationsTokens,
    totalTokens := t.totalTokens + other.totalTokens }

/-- `analyzer.PromptTokens`. -/
structure PromptTokens where
  name : String := ""
  nameTokens : Nat := 0
  descTokens : Nat := 0
  argsTokens : Nat := 0
  totalTokens : Nat := 0
deriving DecidableEq, Repr

/-- `PromptTokens.Add`. -/
def PromptTokens.Add (t other : PromptTokens) : PromptTokens :=
  { t with
    nameTokens := t.nameTokens + other.nameTokens,
    descTokens := t.descTokens + other.descTokens,
    argsTokens := t.argsTokens + other.argsTokens,
    totalTokens := t.totalTokens + other.totalTokens }

/-- `analyzer.ResourceTokens` (used for resources and resource templates). -/
structure ResourceTokens where
  name : String := ""
  nameTokens : Nat := 0
  uriTokens : Nat := 0
  descTokens : Nat := 0
  totalTokens : Nat := 0
deriving DecidableEq, Repr

/-- `ResourceTokens.Add`. -/
def ResourceTokens.Add (t other : ResourceTokens) : ResourceTokens :=
  { t with
    nameTokens := t.nameTokens + other.nameTokens,
    uriTokens := t.uriTokens + other.uriTokens,
    descTokens := t.descTokens + other.descTokens,
    totalTokens := t.totalTokens + other.totalTokens }

/-- An `mcp.Tool` as read by the analyzer. The `any`-typed schema fields
carry their `json.Marshal` outcome (serialized text or failure). -/
structure Tool where
  name : String := ""
  description : String := ""
  inputSchema : Except Unit String := .ok "null"
  outputSchema : Option (Except Unit String) := none
  annotations : Option (Except Unit String) := none
deriving DecidableEq, Repr

/-- An `mcp.Prompt` as read by the analyzer; `arguments` carries the
`json.Marshal` outcome of the argument list. -/
structure Prompt where
  name : String := ""
  description : String := ""
  arguments : Except Unit String := .ok "null"
deriving DecidableEq, Repr

/-- An `mcp.Resource` as read by the analyzer. -/
structure Resource where
  name : String := ""
  uri : String := ""
  description : String := ""
deriving DecidableEq, Repr

/-- An `mcp.ResourceTemplate` as read by the analyzer. -/
structure ResourceTemplate where
  name : String := ""
  uriTemplate : String := ""
  description : String := ""
deriving DecidableEq, Repr

/-- Marshal-and-count for an optional schema field of `AnalyzeTool`: a nil
field counts 0, a marshal failure aborts the analysis of this tool. -/
def countOptMarshal (count : String → Nat) : Option (Except Unit String) → Except Unit Nat
  | none => .ok 0
  | some (.error e) => .error e
  | some (.ok s) => .ok (count s)

/-- `TokenCounter.AnalyzeTool`, with `CountTokens` as the oracle `count`. -/
def AnalyzeTool (count : String → Nat) (tool : Tool) : Except Unit ToolTokens :=
  match tool.inputSchema with
  | .error e => .error e
  | .ok schemaStr =>
    match countOptMarshal count tool.outputSchema with
    | .error e => .error e
    | .ok outTokens =>
      match countOptMarshal count tool.annotations with
      | .error e => .error e
      | .ok annTokens =>
        .ok { name := tool.name,
              nameTokens := count tool.name,
              descTokens := count tool.description,
              schemaTokens := count schemaStr,
              outputSchemaTokens := outTokens,
              annotationsTokens := annTokens,
              totalTokens := count tool.name + count tool.description + count schemaStr
                + outTokens + annTokens }

/-- `TokenCounter.AnalyzePrompt`. -/
def AnalyzePrompt (count : String → Nat) (prompt : Prompt) : Except Unit PromptTokens :=
  match prompt.arguments with
  | .error e => .error e
  | .ok argsStr =>
    .ok { name := prompt.name,
          nameTokens := count prompt.name,
          descTokens := count prompt.description,
          argsTokens := count argsStr,
          totalTokens := count prompt.name + count prompt.description + count argsStr }

/-- `TokenCounter.AnalyzeResource` (its Go error result is always nil). -/
def AnalyzeResource (count : String → Nat) (r : Resource) : ResourceTokens :=
  { name := r.name,
    nameTokens := count r.name,
    uriTokens := count r.uri,
    descTokens := count r.description,
    totalTokens := count r.name + count r.uri + count r.description }

/-- `TokenCounter.AnalyzeResourceTemplate` (its Go error result is always nil). -/
def AnalyzeResourceTemplate (count : String → Nat) (t : ResourceTemplate) : ResourceTokens :=
  { name := t.name,
    nameTokens := count t.name,
    uriTokens := count t.uriTemplate,
    descTokens := count t.description,
    totalTokens := count t.name + count t.uriTemplate + count t.description }

/-- The total-equals-sum-of-sub-fields invariant for `ToolTokens`. -/
def ToolTokens.totalInv (t : ToolTokens) : Prop :=
  t.totalTokens = t.nameTokens + t.descTokens + t.schemaTokens
    + t.outputSchemaTokens + t.annotationsTokens

/-- The total-equals-sum-of-sub-fields invariant for `PromptTokens`. -/
def PromptTokens.totalInv (t : PromptTokens) : Prop :=
  t.totalTokens = t.nameTokens + t.descTokens + t.argsTokens

/-- The total-equals-sum-of-sub-fields invariant for `ResourceTokens`. -/
def ResourceTokens.totalInv (t : ResourceTokens) : Prop :=
  t.totalTokens = t.nameTokens + t.uriTokens + t.descTokens

/-- `main.tableLabelTotal`. -/
def tableLabelTotal : String := "TOTAL"

/-- `main.unknownServerName`: the sentinel display name. -/
def unknownServerName : String := "<unknown>"

/-- `mcp.Implementation`: the identity a server reports in its handshake. -/
structure Implementation where
  name : String := ""
  version : String := ""
deriving DecidableEq, Repr

/-- The initialize response as read by the orchestrator
(`client.InitializeResult()`): instruction text plus the server identity. -/
structure InitResult where
  instructions : String := ""
  serverInfo : Option Implementation := none
deriving DecidableEq, Repr

/-- A connected `mcpclient.Client`: the configured name plus the session
data. Each artifact category is the SDK's paginating iterator, a finite
sequence of (item, error) entries where an error entry ends that category's
iteration. -/
structure Client where
  name : String := ""
  initResult : Option InitResult := none
  tools : List (Except Unit Tool) := []
  prompts : List (Except Unit Prompt) := []
  resources : List (Except Unit Resource) := []
  resourceTemplates : List (Except Unit ResourceTemplate) := []
deriving DecidableEq, Repr

/-- The external world of one batch run: the outcome of
`mcpclient.NewClientFromConfig`'s connection attempt per server
configuration (environment resolution, transport dial and handshake). -/
structure World where
  connect : ServerConfig → String → Except String Client

/-- `mcpclient.NewClientFromConfig` at the orchestrator boundary: a nil
configuration is an immediate error, otherwise the world decides. -/
def connectFromConfig (w : World) (srv : Option ServerConfig) (configDir : String) :
    Except String Client :=
  match srv with
  | none => .error "server configuration is nil"
  | some s => w.connect s configDir

/-- `main.ServerResult`. -/
structure ServerResult where
  name : String := ""
  error : Option String := none
  instructionTokens : Nat := 0
  totalToolTokens : ToolTokens := {}
  totalPromptTokens : PromptTokens := {}
  totalResourceTokens : ResourceTokens := {}
  toolStats : List ToolTokens := []
  promptStats : List PromptTokens := []
  resourceStats : List ResourceTokens := []
deriving DecidableEq, Repr

/-- `main.resolveServerName`: the configured name when non-empty, else the
server-reported name when present and non-empty, else the sentinel. -/
def resolveServerName (configuredName : String) (serverInfo : Option Implementation) : String :=
  if configuredName ≠ "" then configuredName
  else
    match serverInfo with
    | some si => if si.name ≠ "" then si.name else unknownServerName
    | none => unknownServerName

/-- The loop of `main.analyzeTools`: an error entry ends the iteration
(logged warning), a failed item analysis skips that item, a successful one
is appended and accumulated into the running total. -/
def analyzeToolsGo (count : String → Nat) :
    List (Except Unit Tool) → List ToolTokens → ToolTokens → List ToolTokens × ToolTokens
  | [], stats, total => (stats, total)
  | .error _ :: _, stats, total => (stats, total)
  | .ok tool :: rest, stats, total =>
    match AnalyzeTool count tool with
    | .error _ => analyzeToolsGo count rest stats total
    | .ok s => analyzeToolsGo count rest (stats ++ [s]) (total.Add s)

/-- `main.analyzeTools`. -/
def analyzeTools (count : String → Nat) (client : Client) : List ToolTokens × ToolTokens :=
  analyzeToolsGo count client.tools [] { name := tableLabelTotal }

/-- The loop of `main.analyzePrompts`. -/
def analyzePromptsGo (count : String → Nat) :
    List (Except Unit Prompt) → List PromptTokens → PromptTokens → List PromptTokens × PromptTokens
  | [], stats, total => (stats, total)
  | .error _ :: _, stats, total => (stats, total)
  | .ok prompt :: rest, stats, total =>
    match AnalyzePrompt count prompt with
    | .error _ => analyzePromptsGo count rest stats total
    | .ok s => analyzePromptsGo count rest (stats ++ [s]) (total.Add s)

/-- `main.analyzePrompts`. -/
def analyzePrompts (count : String → Nat) (client : Client) : List PromptTokens × PromptTokens :=
  analyzePromptsGo count client.prompts [] { name := tableLabelTotal }

/-- The resource loop of `main.analyzeResources` (item analysis never fails). -/
def analyzeResourcesGo (count : String → Nat) :
    List (Except Unit Resource) → List ResourceTokens → ResourceTokens →
      List ResourceTokens × ResourceTokens
  | [], stats, total => (stats, total)
  | .error _ :: _, stats, total => (stats, total)
  | .ok r :: rest, stats, total =>
    analyzeResourcesGo count rest (stats ++ [AnalyzeResource count r])
      (total.Add (AnalyzeResource count r))

/-- The resource-template loop of `main.analyzeResources`. -/
def analyzeTemplatesGo (count : String → Nat) :
    List (Except Unit ResourceTemplate) → List ResourceTokens → ResourceTokens →
      List ResourceTokens × ResourceTokens
  | [], stats, total => (stats, total)
  | .error _ :: _, stats, total => (stats, total)
  | .ok t :: rest, stats, total =>
    analyzeTemplatesGo count rest (stats ++ [AnalyzeResourceTemplate count t])
      (total.Add (AnalyzeResourceTemplate count t))

/-- `main.analyzeResources`: resources, then resource templates, each loop
ending its own iteration on an error entry. -/
def analyzeResources (count : String → Nat) (client : Client) :
    List ResourceTokens × ResourceTokens :=
  let (stats, total) := analyzeResourcesGo count client.resources [] { name := tableLabelTotal }
  analyzeTemplatesGo count client.resourceTemplates stats total

/-- `main.analyzeClient`: a missing initialize result is the one fatal
condition for this server; otherwise instructions are counted and every
artifact category analyzed. -/
def analyzeClient (count : String → Nat) (client : Client) : ServerResult :=
  match client.initResult with
  | none => { error := some "MCP session not initialized" }
  | some initResp =>
    { name := "",
      instructionTokens := count initResp.instructions,
      toolStats := (analyzeTools count client).1,
      totalToolTokens := (analyzeTools count client).2,
      promptStats := (analyzePrompts count client).1,
      totalPromptTokens := (analyzePrompts count client).2,
      resourceStats := (analyzeResources count client).1,
      totalResourceTokens := (analyzeResources count client).2 }

/-- `main.analyzeServer`: connect, analyze, then resolve the display name
from the configured name and whatever the server reported. -/
def analyzeServer (w : World) (count : String → Nat) (configDir : String)
    (nm : String) (srv : Option ServerConfig) : ServerResult :=
  match connectFromConfig w srv configDir with
  | .error e => { name := resolveServerName nm none, error := some e }
  | .ok client =>
    let result := analyzeClient count client
    let serverInfo :=
      match client.initResult with
      | some initResp => initResp.serverInfo
      | none => none
    { result with name := resolveServerName nm serverInfo }

/-- Go's lexicographic string order, on the characters (byte order on
ASCII data): the order `sort.Slice(results, ...Name < ...Name)` sorts by. -/
def charListLe : List Char → List Char → Bool
  | [], _ => true
  | _ :: _, [] => false
  | a :: as, b :: bs =>
    if a.val.toNat < b.val.toNat then true
    else if b.val.toNat < a.val.toNat then false
    else charListLe as bs

theorem charListLe_cons (x y : Char) (xs ys : List Char) :
    charListLe (x :: xs) (y :: ys) = true ↔
      (x.val.toNat < y.val.toNat ∨ (x.val.toNat = y.val.toNat ∧ charListLe xs ys = true)) := by
  simp only [charListLe]
  by_cases h1 : x.val.toNat < y.val.toNat
  · rw [if_pos h1]; simp [h1]
  · rw [if_neg h1]
    by_cases h2 : y.val.toNat < x.val.toNat
    · rw [if_pos h2]
      constructor
      · intro h; cases h
      · rintro (h | ⟨he, _⟩) <;> omega
    · rw [if_neg h2]
      constructor
      · intro h; right; exact ⟨by omega, h⟩
      · rintro (h | ⟨_, hc⟩)
        · omega
        · exact hc

theorem charListLe_total : ∀ a b : List Char, charListLe a b = true ∨ charListLe b a = true := by
  intro a
  induction a with
  | nil => intro b; left; rfl
  | cons x xs ih =>
    intro b
    cases b with
    | nil => right; rfl
    | cons y ys =>
      rw [charListLe_cons, charListLe_cons]
      by_cases h1 : x.val.toNat < y.val.toNat
      · left; left; omega
      · by_cases h2 : y.val.toNat < x.val.toNat
        · right; left; omega
        · rcases ih ys with h | h
          · left; right; exact ⟨by omega, h⟩
          · right; right; exact ⟨by omega, h⟩

theorem charListLe_trans : ∀ a b c : List Char,
    charListLe a b = true → charListLe b c = true → charListLe a c = true := by
  intro a
  induction a with
  | nil => intro b c _ _; rfl
  | cons x xs ih =>
    intro b c hab hbc
    cases b with
    | nil => cases hab
    | cons y ys =>
      cases c with
      | nil => cases hbc
      | cons z zs =>
        rw [charListLe_cons] at hab hbc ⊢
        rcases hab with h | ⟨he, hr⟩ <;> rcases hbc with h2 | ⟨he2, hr2⟩
        · left; omega
        · left; omega
        · left; omega
        · right; exact ⟨by omega, ih ys zs hr hr2⟩

/-- The comparison `sort.Slice` uses: nondecreasing resolved display name. -/
def byName (a b : ServerResult) : Prop :=
  charListLe a.name.toList b.name.toList = true

instance : DecidableRel byName :=
  fun a b => inferInstanceAs (Decidable (charListLe a.name.toList b.name.toList = true))

instance : IsTotal ServerResult byName := ⟨fun a b => charListLe_total a.name.toList b.name.toList⟩

instance : IsTrans ServerResult byName :=
  ⟨fun a b c hab hbc => charListLe_trans a.name.toList b.name.toList c.name.toList hab hbc⟩

/-- The `sort.Slice(results, ...)` call: a by-name nondecreasing permutation
of the collected results. -/
def sortByName (l : List ServerResult) : List ServerResult := List.insertionSort byName l

/-- `main.connectAndAnalyzeAll`: every unit of work appends exactly one
result under the shared lock, so the collected list is the per-server
results in some completion order `order` (an arbitrary permutation of the
servers map); the list is then sorted by name. -/
def connectAndAnalyzeAll (w : World) (count : String → Nat) (configDir : String)
    (order : List (String × Option ServerConfig)) : List ServerResult :=
  sortByName (order.map (fun p => analyzeServer w count configDir p.1 p.2))

/-- The errors `main.runAnalysis` can return: a `--server` name not in the
config, an empty server map, or the batch failure count — per-server errors
never appear here. -/
inductive RunError
  | serverNotFound (nm : String)
  | noServers
  | serversFailed (failed total : Nat)
deriving DecidableEq, Repr

/-- `main.runAnalysis` (rendering omitted — it is output-only): filter to
the `--server` flag when set, fail on an empty map, run the batch, and
report only the count of failed versus total servers. -/
def runAnalysis (w : World) (count : String → Nat) (configDir : String)
    (flagServer : String) (servers : List (String × Option ServerConfig))
    (order : List (String × Option ServerConfig)) : Except RunError Unit :=
  match (if flagServer ≠ "" then
          match aLookup servers flagServer with
          | none => Except.error (RunError.serverNotFound flagServer)
          | some srv => Except.ok [(flagServer, srv)]
        else Except.ok servers) with
  | .error e => .error e
  | .ok fservers =>
    if fservers = [] then .error .noServers
    else
      let results := connectAndAnalyzeAll w count configDir order
      let failCount := (results.filter (fun r => r.error.isSome)).length
      if 0 < failCount then .error (.serversFailed failCount results.length)
      else .ok ()

/-- A `ServerResult` carrying no statistics (every stat field at its zero
value, as in a freshly allocated Go struct). -/
def noStats (r : ServerResult) : Prop :=
  r.instructionTokens = 0 ∧ r.toolStats = [] ∧ r.promptStats = [] ∧ r.resourceStats = []
  ∧ r.totalToolTokens = {} ∧ r.totalPromptTokens = {} ∧ r.totalResourceTokens = {}

/-- A concrete tool for the C7 witness. -/
def exTool : Tool := { name := "t", description := "dd", inputSchema := Except.ok "xy" }

/-- The stats `AnalyzeTool` produces for `exTool` under a length counter. -/
def exToolStats : ToolTokens :=
  { name := "t", nameTokens := 1, descTokens := 2, schemaTokens := 2,
    outputSchemaTokens := 0, annotationsTokens := 0, totalTokens := 5 }

/-- A concrete accumulator and operand for the C7 witness. -/
def exAcc : ToolTokens := { name := "TOTAL", nameTokens := 1, totalTokens := 1 }

/-- The operand added into `exAcc` in the C7 witness. -/
def exOther : ToolTokens := { name := "x", nameTokens := 2, totalTokens := 2 }

/-- C7: every stats value produced by an Analyze operation satisfies
total = sum of its sub-field counts, and each `Add` sums every numeric
sub-field of the two operands into the receiver — so the receiver's total
becomes the sum of the two totals, its name is unchanged, and the invariant
is preserved by accumulation. -/
theorem artifactStats_total_inv :
    (∀ (count : String → Nat) (tool : Tool) (t : ToolTokens),
      AnalyzeTool count tool = .ok t → t.totalInv)
  ∧ (∀ (count : String → Nat) (p : Prompt) (t : PromptTokens),
      AnalyzePrompt count p = .ok t → t.totalInv)
  ∧ (∀ (count : String → Nat) (r : Resource), (AnalyzeResource count r).totalInv)
  ∧ (∀ (count : String → Nat) (r : ResourceTemplate), (AnalyzeResourceTemplate count r).totalInv)
  ∧ (∀ t o : ToolTokens, (t.Add o).name = t.name
      ∧ (t.Add o).nameTokens = t.nameTokens + o.nameTokens
      ∧ (t.Add o).descTokens = t.descTokens + o.descTokens
      ∧ (t.Add o).schemaTokens = t.schemaTokens + o.schemaTokens
      ∧ (t.Add o).outputSchemaTokens = t.outputSchemaTokens + o.outputSchemaTokens
      ∧ (t.Add o).annotationsTokens = t.annotationsTokens + o.annotationsTokens
      ∧ (t.Add o).totalTokens = t.totalTokens + o.totalTokens
      ∧ (t.totalInv → o.totalInv → (t.Add o).totalInv))
  ∧ (∀ t o : PromptTokens, (t.Add o).name = t.name
      ∧ (t.Add o).totalTokens = t.totalTokens + o.totalTokens
      ∧ (t.totalInv → o.totalInv → (t.Add o).totalInv))
  ∧ (∀ t o : ResourceTokens, (t.Add o).name = t.name
      ∧ (t.Add o).totalTokens = t.totalTokens + o.totalTokens
      ∧ (t.totalInv → o.totalInv → (t.Add o).totalInv)) := by
  refine ⟨?_, ?_, ?_, ?_, ?_, ?_, ?_⟩
  · intro count tool t h
    unfold AnalyzeTool at h
    cases his : tool.inputSchema with
    | error e => rw [his] at h; cases h
    | ok schemaStr =>
      rw [his] at h
      cases hout : countOptMarshal count tool.outputSchema with
      | error e => rw [hout] at h; cases h
      | ok outTokens =>
        rw [hout] at h
        cases hann : countOptMarshal count tool.annotations with
        | error e => rw [hann] at h; cases h
        | ok annTokens =>
          rw [hann] at h
          obtain rfl := (Except.ok.inj h)
          simp [ToolTokens.totalInv]
  · intro count p t h
    unfold AnalyzePrompt at h
    cases his : p.arguments with
    | error e => rw [his] at h; cases h
    | ok argsStr =>
      rw [his] at h
      obtain rfl := (Except.ok.inj h)
      simp [PromptTokens.totalInv]
  · intro count r
    simp [AnalyzeResource, ResourceTokens.totalInv]
  · intro count r
    simp [AnalyzeResourceTemplate, ResourceTokens.totalInv]
  · intro t o
    refine ⟨rfl, rfl, rfl, rfl, rfl, rfl, rfl, ?_⟩
    intro h1 h2
    simp only [ToolTokens.totalInv, ToolTokens.Add] at *
    omega
  · intro t o
    refine ⟨rfl, rfl, ?_⟩
    intro h1 h2
    simp only [PromptTokens.totalInv, PromptTokens.Add] at *
    omega
  · intro t o
    refine ⟨rfl, rfl, ?_⟩
    intro h1 h2
    simp only [ResourceTokens.totalInv, ResourceTokens.Add] at *
    omega

theorem artifactStats_total_inv_witness :
    AnalyzeTool String.length exTool = .ok exToolStats
    ∧ ToolTokens.totalInv exToolStats
    ∧ (exAcc.Add exOther).totalTokens = 1 + 2
    ∧ (exAcc.Add exOther).name = "TOTAL" := by
  have h := artifactStats_total_inv
  refine ⟨rfl, ?_, ?_, ?_⟩
  · exact h.1 String.length exTool exToolStats rfl
  · exact (h.2.2.2.2.1 exAcc exOther).2.2.2.2.2.2.1
  · exact (h.2.2.2.2.1 exAcc exOther).1

/-- A server-reported identity with an empty name, for the C4 witness. -/
def emptyNameInfo : Implementation := { name := "", version := "1.0.0" }

/-- A server-reported identity named `x`, for the C4 witness. -/
def xNameInfo : Implementation := { name := "x" }

/-- C4: the resolved display name is the configured name when non-empty,
else the server-reported handshake name when present and non-empty, else
the fixed sentinel — in particular a configured empty name with an absent
or empty reported name resolves to the sentinel. -/
theorem resolveServerName_spec :
    (∀ (cn : String) (si : Option Implementation), cn ≠ "" → resolveServerName cn si = cn)
  ∧ (∀ si : Implementation, si.name ≠ "" → resolveServerName "" (some si) = si.name)
  ∧ (∀ si : Implementation, si.name = "" → resolveServerName "" (some si) = unknownServerName)
  ∧ resolveServerName "" none = unknownServerName := by
  refine ⟨?_, ?_, ?_, rfl⟩
  · intro cn si h
    simp [resolveServerName, h]
  · intro si h
    simp [resolveServerName, h]
  · intro si h
    simp [resolveServerName, h]

theorem resolveServerName_spec_witness :
    resolveServerName "a" (some xNameInfo) = "a"
    ∧ resolveServerName "" (some xNameInfo) = "x"
    ∧ resolveServerName "" (some emptyNameInfo) = unknownServerName
    ∧ resolveServerName "" none = unknownServerName := by
  refine ⟨?_, ?_, ?_, resolveServerName_spec.2.2.2⟩
  · exact resolveServerName_spec.1 "a" (some xNameInfo) (by decide)
  · exact resolveServerName_spec.2.1 xNameInfo (by decide)
  · exact resolveServerName_spec.2.2.1 emptyNameInfo rfl

/-- A world in which every connection attempt fails, for the C10 witness. -/
def failingWorld : World := { connect := fun _ _ => .error "dial tcp: connection refused" }

/-- The server configuration the C10 witness analyzes. -/
def badSrv : ServerConfig := { name := "bad", command := "x", type := TransportStdio }

/-- C10: every result the analysis engine produces is either usable (error
nil, statistics from a full analysis pass) or failed (error non-nil); a
failed result carries no statistics at all, so no partially-populated
result is ever presented as a success. -/
theorem serverResult_usable_or_failed (w : World) (count : String → Nat)
    (configDir nm : String) (srv : Option ServerConfig) :
    (analyzeServer w count configDir nm srv).error = none
    ∨ ((analyzeServer w count configDir nm srv).error ≠ none
        ∧ noStats (analyzeServer w count configDir nm srv)) := by
  cases hc : connectFromConfig w srv configDir with
  | error e =>
    right
    constructor
    · simp [analyzeServer, hc]
    · simp [analyzeServer, hc, noStats]
  | ok client =>
    cases hi : client.initResult with
    | none =>
      right
      constructor
      · simp [analyzeServer, analyzeClient, hc, hi]
      · simp [analyzeServer, analyzeClient, hc, hi, noStats]
    | some ir =>
      left
      simp [analyzeServer, analyzeClient, hc, hi]

theorem serverResult_usable_or_failed_witness :
    (analyzeServer failingWorld String.length "" "bad" (some badSrv)).error = none
    ∨ ((analyzeServer failingWorld String.length "" "bad" (some badSrv)).error ≠ none
        ∧ noStats (analyzeServer failingWorld String.length "" "bad" (some badSrv))) :=
  serverResult_usable_or_failed failingWorld String.length "" "bad" (some badSrv)

theorem filter_map_list {α β : Type} (l : List α) (f : α → β) (p : β → Bool) :
    (l.map f).filter p = (l.filter (fun x => p (f x))).map f := by
  induction l with
  | nil => rfl
  | cons a rest ih => by_cases h : p (f a) <;> simp [h, ih]

theorem connectAll_perm (w : World) (count : String → Nat) (configDir : String)
    (servers order : List (String × Option ServerConfig)) (hperm : List.Perm order servers) :
    List.Perm (connectAndAnalyzeAll w count configDir order)
      (servers.map (fun p => analyzeServer w count configDir p.1 p.2)) :=
  (List.perm_insertionSort byName _).trans (hperm.map _)

theorem connectAll_sorted (w : World) (count : String → Nat) (configDir : String)
    (order : List (String × Option ServerConfig)) :
    List.Sorted byName (connectAndAnalyzeAll w count configDir order) :=
  List.sorted_insertionSort byName _

/-- C2: for a batch over N servers of which K fail connection or analysis,
the run returns exactly N results which are, as a multiset, exactly the
per-server analysis outcomes (so exactly K carry a non-nil error and the
rest are the usable per-server stats), and the returned list is
nondecreasing in resolved display name whatever the completion order. -/
theorem connectAndAnalyzeAll_spec (w : World) (count : String → Nat) (configDir : String)
    (servers order : List (String × Option ServerConfig)) (hperm : List.Perm order servers) :
    (connectAndAnalyzeAll w count configDir order).length = servers.length
    ∧ List.Perm (connectAndAnalyzeAll w count configDir order)
        (servers.map (fun p => analyzeServer w count configDir p.1 p.2))
    ∧ ((connectAndAnalyzeAll w count configDir order).filter (fun r => r.error.isSome)).length
        = (servers.filter (fun p => (analyzeServer w count configDir p.1 p.2).error.isSome)).length
    ∧ List.Sorted byName (connectAndAnalyzeAll w count configDir order) := by
  have hp := connectAll_perm w count configDir servers order hperm
  refine ⟨?_, hp, ?_, connectAll_sorted w count configDir order⟩
  · exact hp.length_eq.trans (List.length_map _ _)
  · have h2 := (hp.filter (fun r => r.error.isSome)).length_eq
    rw [h2, filter_map_list, List.length_map]

/-- The usable client of the example world: initialized session with one
tool. -/
def exClient : Client :=
  { name := "svc-a",
    initResult := some { instructions := "use the tool", serverInfo := some { name := "reported" } },
    tools := [Except.ok exTool] }

/-- The example world: `svc-a` connects, everything else fails. -/
def exWorld : World :=
  { connect := fun s _ => if s.name = "svc-a" then .ok exClient else .error "connection refused" }

/-- The servers map of the C2/C3 witness: one healthy, one failing. -/
def exServers : List (String × Option ServerConfig) :=
  [("svc-a", some { name := "svc-a", command := "echo", type := TransportStdio }),
   ("svc-b", some { name := "svc-b", url := "http://localhost:9/mcp", type := TransportHTTP })]

/-- A completion order opposite to the map order, for the C2/C3 witness. -/
def exOrder : List (String × Option ServerConfig) :=
  [("svc-b", some { name := "svc-b", url := "http://localhost:9/mcp", type := TransportHTTP }),
   ("svc-a", some { name := "svc-a", command := "echo", type := TransportStdio })]

theorem connectAndAnalyzeAll_spec_witness :
    (connectAndAnalyzeAll exWorld String.length "" exOrder).length = 2
    ∧ ((connectAndAnalyzeAll exWorld String.length "" exOrder).filter
        (fun r => r.error.isSome)).length = 1
    ∧ List.Sorted byName (connectAndAnalyzeAll exWorld String.length "" exOrder) := by
  have h := connectAndAnalyzeAll_spec exWorld String.length "" exServers exOrder (by decide)
  exact ⟨h.1.trans rfl, h.2.2.1.trans (by rfl), h.2.2.2⟩

/-- C3: in a batch run, each server's connection or analysis error is
captured in that server's own result inside the returned list and never
escapes `runAnalysis` as a whole-batch error: when no result failed the run
returns ok, and when some did the only failure signal is the count of
failed versus total servers. -/
theorem runAnalysis_failure_signal (w : World) (count : String → Nat) (configDir : String)
    (servers order : List (String × Option ServerConfig))
    (hperm : List.Perm order servers) (hne : servers ≠ []) :
    (((connectAndAnalyzeAll w count configDir order).filter
        (fun r => r.error.isSome)).length = 0 →
      runAnalysis w count configDir "" servers order = .ok ())
    ∧ (0 < ((connectAndAnalyzeAll w count configDir order).filter
        (fun r => r.error.isSome)).length →
      runAnalysis w count configDir "" servers order
        = .error (.serversFailed
            ((connectAndAnalyzeAll w count configDir order).filter
              (fun r => r.error.isSome)).length
            servers.length))
    ∧ (∀ p ∈ servers,
        analyzeServer w count configDir p.1 p.2 ∈ connectAndAnalyzeAll w count configDir order) := by
  have hp := connectAll_perm w count configDir servers order hperm
  have hlen : (connectAndAnalyzeAll w count configDir order).length = servers.length :=
    hp.length_eq.trans (List.length_map _ _)
  refine ⟨?_, ?_, ?_⟩
  · intro h0
    simp only [runAnalysis, ne_eq, not_true_eq_false, reduceIte]
    rw [if_neg hne, h0]
    rw [if_neg (by omega : ¬ (0:Nat) < 0)]
  · intro hK
    simp only [runAnalysis, ne_eq, not_true_eq_false, reduceIte]
    rw [if_neg hne, if_pos hK, hlen]
  · intro p hpmem
    exact hp.symm.mem_iff.mp (List.mem_map_of_mem _ hpmem)

theorem runAnalysis_failure_signal_witness :
    runAnalysis exWorld String.length "" "" exServers exOrder
      = .error (.serversFailed 1 2) := by
  have h := runAnalysis_failure_signal exWorld String.length "" exServers exOrder
    (by decide) (by decide)
  have h2 := h.2.1 (by decide)
  exact h2.trans (by decide)
